import Mathlib

/-!
Verification development for a server-side WebSocket endpoint (RFC 6455):
frame model, close codes, frame decoder/encoder, message reassembler with
streaming UTF-8 validation, and the HTTP upgrade handshake.

Bytes are modelled as `Nat` (values < 256 on real inputs), byte streams as
`List Nat`, Rust strings as `List Char`, fallible operations as `Except`.
The third-party UTF-8 routines (`utf8::decode`, `utf8::Incomplete::try_complete`,
`simdutf8::basic::from_utf8`) are modelled by a byte-at-a-time streaming
validator implementing the standard UTF-8 acceptance ranges.
-/

deriving instance DecidableEq for Except

/-- Opcode enumeration with wire values 0x0,0x1,0x2,0x8,0x9,0xa. -/
inductive Opcode where
  | continuation
  | text
  | binary
  | close
  | ping
  | pong
deriving DecidableEq

/-- Wire value of an opcode (`Opcode as u8`). -/
def Opcode.toByte : Opcode → Nat
  | .continuation => 0x0
  | .text => 0x1
  | .binary => 0x2
  | .close => 0x8
  | .ping => 0x9
  | .pong => 0xa

/-- Error taxonomy of the framing layer (`FrameError`). -/
inductive FrameError where
  | invalidUTF8
  | io
  | invalidOpCode (v : Nat)
  | invalidContinuation (v : Nat)
  | invalidControlFin (v : Nat)
  | invalidPayloadLength (v : Nat)
  | frameTooLarge
  | pingFrameTooLarge
  | reservedBitsNotZero
  | invalidFragment
  | invalidCloseFrame
deriving DecidableEq

/-- `TryFrom<u8> for Opcode`. -/
def Opcode.ofByte (v : Nat) : Except FrameError Opcode :=
  if v = 0x0 then .ok .continuation
  else if v = 0x1 then .ok .text
  else if v = 0x2 then .ok .binary
  else if v = 0x8 then .ok .close
  else if v = 0x9 then .ok .ping
  else if v = 0xa then .ok .pong
  else .error (.invalidOpCode v)

/-- `Opcode::is_control`. -/
def Opcode.isControl : Opcode → Bool
  | .close | .ping | .pong => true
  | _ => false

/-- The frame record: fin flag, opcode, payload length, payload bytes. -/
structure Frame where
  fin : Bool
  opcode : Opcode
  len : Nat
  data : List Nat
deriving DecidableEq

/-- Close-code taxonomy (`CloseCode`). -/
inductive CloseCode where
  | normal
  | away
  | protocol
  | unsupported
  | reserved (c : Nat)
  | status
  | abnormal
  | invalid
  | policy
  | size
  | extension
  | error
  | restart
  | again
  | tls
  | bad (c : Nat)
  | library (c : Nat)
deriving DecidableEq

/-- `CloseCode::is_allowed`. -/
def CloseCode.isAllowed : CloseCode → Bool
  | .bad _ | .reserved _ | .status | .abnormal | .tls => false
  | _ => true

/-- `From<u16> for CloseCode`. -/
def CloseCode.ofU16 (code : Nat) : CloseCode :=
  if code = 1000 then .normal
  else if code = 1001 then .away
  else if code = 1002 then .protocol
  else if code = 1003 then .unsupported
  else if code = 1005 then .status
  else if code = 1006 then .abnormal
  else if code = 1007 then .invalid
  else if code = 1008 then .policy
  else if code = 1009 then .size
  else if code = 1010 then .extension
  else if code = 1011 then .error
  else if code = 1012 then .restart
  else if code = 1013 then .again
  else if code = 1015 then .tls
  else if 1 ≤ code ∧ code ≤ 999 then .bad code
  else if 1016 ≤ code ∧ code ≤ 2999 then .reserved code
  else if 3000 ≤ code ∧ code ≤ 4999 then .library code
  else .bad code

/-- `From<CloseCode> for u16`. -/
def CloseCode.toU16 : CloseCode → Nat
  | .normal => 1000
  | .away => 1001
  | .protocol => 1002
  | .unsupported => 1003
  | .status => 1005
  | .abnormal => 1006
  | .invalid => 1007
  | .policy => 1008
  | .size => 1009
  | .extension => 1010
  | .error => 1011
  | .restart => 1012
  | .again => 1013
  | .tls => 1015
  | .reserved c => c
  | .library c => c
  | .bad c => c

/-- `Frame::new`: a final frame with `len = |data|`. -/
def Frame.new (opcode : Opcode) (data : List Nat) : Frame :=
  { fin := true, opcode := opcode, len := data.length, data := data }

/-- `Frame::close`: payload is the 2-byte big-endian code followed by the reason. -/
def Frame.close (code : Nat) (reason : List Nat) : Frame :=
  let payload := (code / 256 % 256) :: (code % 256) :: reason
  { fin := true, opcode := .close, len := payload.length, data := payload }

/-! ## Streaming UTF-8 validation

Standard UTF-8 acceptance ranges (as enforced by Rust's `str` validation,
which both `simdutf8::basic::from_utf8` and the `utf8` crate implement):
ASCII, C2–DF + continuation, 3-byte with E0/ED second-byte restrictions,
4-byte with F0/F4 second-byte restrictions. -/

/-- Continuation byte 80–BF. -/
def isCont (b : Nat) : Bool := 0x80 ≤ b && b ≤ 0xBF

/-- Allowed second byte after a given lead byte. -/
def allowedSecond (lead b : Nat) : Bool :=
  if lead = 0xE0 then 0xA0 ≤ b && b ≤ 0xBF
  else if lead = 0xED then 0x80 ≤ b && b ≤ 0x9F
  else if lead = 0xF0 then 0x90 ≤ b && b ≤ 0xBF
  else if lead = 0xF4 then 0x80 ≤ b && b ≤ 0x8F
  else isCont b

/-- Lead byte of a 2-byte sequence. -/
def isLead2 (b : Nat) : Bool := 0xC2 ≤ b && b ≤ 0xDF

/-- Lead byte of a 3-byte sequence. -/
def isLead3 (b : Nat) : Bool := 0xE0 ≤ b && b ≤ 0xEF

/-- Lead byte of a 4-byte sequence. -/
def isLead4 (b : Nat) : Bool := 0xF0 ≤ b && b ≤ 0xF4

/-- `charOk l`: `l` is exactly one complete, valid UTF-8 code-point encoding. -/
def charOk : List Nat → Bool
  | [a] => a ≤ 0x7F
  | [a, b] => isLead2 a && allowedSecond a b
  | [a, b, c] => isLead3 a && allowedSecond a b && isCont c
  | [a, b, c, d] => isLead4 a && allowedSecond a b && isCont c && isCont d
  | _ => false

/-- `viablePre l`: `l` is a strict prefix of some valid code-point encoding. -/
def viablePre : List Nat → Bool
  | [] => true
  | [a] => isLead2 a || isLead3 a || isLead4 a
  | [a, b] => (isLead3 a || isLead4 a) && allowedSecond a b
  | [a, b, c] => isLead4 a && allowedSecond a b && isCont c
  | _ => false

/-- One step of the streaming validator. State: (validated bytes, pending
partial code point). Feeding a byte either completes a code point, extends
the pending prefix, or detects invalid input (`none`). -/
def feed (st : List Nat × List Nat) (b : Nat) : Option (List Nat × List Nat) :=
  let p := st.2 ++ [b]
  if charOk p then some (st.1 ++ p, [])
  else if viablePre p then some (st.1, p)
  else none

/-- Feed a whole byte list through the streaming validator. -/
def feedAll (st : List Nat × List Nat) : List Nat → Option (List Nat × List Nat)
  | [] => some st
  | b :: r =>
    match feed st b with
    | none => none
    | some st' => feedAll st' r

/-- Result of `utf8::decode`. -/
inductive DecodeRes where
  | ok
  | incomplete (validPart pending : List Nat)
  | invalid
deriving DecidableEq

/-- Model of `utf8::decode`: whole input valid, or a valid part followed by an
incomplete trailing code point, or invalid. -/
def utf8Decode (l : List Nat) : DecodeRes :=
  match feedAll ([], []) l with
  | none => .invalid
  | some (_, []) => .ok
  | some (v, p) => .incomplete v p

/-- Model of `simdutf8::basic::from_utf8(..).is_ok()`. -/
def validUtf8 (l : List Nat) : Bool :=
  match utf8Decode l with
  | .ok => true
  | _ => false

/-- Result of `utf8::Incomplete::try_complete`. -/
inductive TryCompleteRes where
  | needMore (st : List Nat)
  | done (bytes rest : List Nat)
  | failed (rest : List Nat)
deriving DecidableEq

/-- Model of `utf8::Incomplete::try_complete`, pushing input bytes one at a
time into the pending buffer until it completes a code point (`done`),
becomes invalid (`failed`), or the input runs out (`needMore`). -/
def tryComplete (st : List Nat) : List Nat → TryCompleteRes
  | [] => .needMore st
  | b :: r =>
    let p := st ++ [b]
    if charOk p then .done p r
    else if viablePre p then tryComplete p r
    else .failed (b :: r)

/-! ## Message reassembler (`Fragments`) -/

/-- `Fragment`: in-progress reassembly buffer. For text, the optional pending
bytes of an incomplete code point plus the validated buffer. -/
inductive Fragment where
  | text (pending : Option (List Nat)) (buffer : List Nat)
  | binary (buffer : List Nat)
deriving DecidableEq

/-- `Fragment::take_buffer`. -/
def Fragment.takeBuffer : Fragment → List Nat
  | .text _ b => b
  | .binary b => b

/-- `Fragments`: reassembler state. -/
structure Fragments where
  fragments : Option Fragment
  opCode : Opcode
deriving DecidableEq

/-- `Fragments::new`. -/
def Fragments.new : Fragments := { fragments := none, opCode := .close }

/-- `Fragments::accumulate`: consumes one decoded frame, returns the updated
state and `some` reassembled message when one is complete. -/
def Fragments.accumulate (st : Fragments) (f : Frame) :
    Except FrameError (Fragments × Option Frame) :=
  match f.opcode with
  | .text | .binary =>
    if f.fin then
      if st.fragments.isSome then .error .invalidFragment
      else if f.opcode = .text && !validUtf8 f.data then .error .invalidUTF8
      else .ok (st, some f)
    else if f.opcode = .text then
      match utf8Decode f.data with
      | .ok => .ok ({ fragments := some (.text none f.data), opCode := f.opcode }, none)
      | .incomplete v p =>
        .ok ({ fragments := some (.text (some p) v), opCode := f.opcode }, none)
      | .invalid => .error .invalidUTF8
    else
      .ok ({ fragments := some (.binary f.data), opCode := f.opcode }, none)
  | .continuation =>
    match st.fragments with
    | none => .error (.invalidContinuation f.opcode.toByte)
    | some (.text pending buffer) =>
      let step : Except FrameError (Option (List Nat) × List Nat × List Nat) :=
        match pending with
        | some inc =>
          match tryComplete inc f.data with
          | .done txt rest => .ok (none, buffer ++ txt, rest)
          | .needMore ns => .ok (some ns, buffer, [])
          | .failed _ => .error .invalidUTF8
        | none => .ok (none, buffer, f.data)
      match step with
      | .error e => .error e
      | .ok (pend1, buf1, tail) =>
        match utf8Decode tail with
        | .ok =>
          if f.fin then
            .ok ({ st with fragments := none }, some (Frame.new st.opCode (buf1 ++ tail)))
          else
            .ok ({ st with fragments := some (.text pend1 (buf1 ++ tail)) }, none)
        | .incomplete v p =>
          if f.fin then
            .ok ({ st with fragments := none }, some (Frame.new st.opCode (buf1 ++ v)))
          else
            .ok ({ st with fragments := some (.text (some p) (buf1 ++ v)) }, none)
        | .invalid => .error .invalidUTF8
    | some (.binary buffer) =>
      let d := buffer ++ f.data
      if f.fin then
        .ok ({ st with fragments := none }, some (Frame.new st.opCode d))
      else
        .ok ({ st with fragments := some (.binary d) }, none)
  | .close | .ping | .pong => .ok (st, some f)

/-- Feed a list of frames through `Fragments::accumulate`, collecting each
call's output (`none` = message still in progress). -/
def runFrames (st : Fragments) : List Frame → Except FrameError (Fragments × List (Option Frame))
  | [] => .ok (st, [])
  | f :: fs =>
    match st.accumulate f with
    | .error e => .error e
    | .ok (st', out) =>
      match runFrames st' fs with
      | .error e => .error e
      | .ok (st'', outs) => .ok (st'', out :: outs)

/-! ## Frame decoder (`Reader::read_frame`) -/

/-- One byte from the source; EOF is an I/O error (`read_exact`). -/
def rdByte : List Nat → Except FrameError (Nat × List Nat)
  | [] => .error .io
  | b :: r => .ok (b, r)

/-- `read_exact` of `n` bytes from the source. -/
def readN (n : Nat) (input : List Nat) : Except FrameError (List Nat × List Nat) :=
  if n ≤ input.length then .ok (input.take n, input.drop n) else .error .io

/-- Big-endian value of a byte list (`u16::from_be_bytes` / `u64::from_be_bytes`). -/
def beVal (l : List Nat) : Nat := l.foldl (fun acc b => acc * 256 + b) 0

/-- XOR each payload byte with `key[i % 4]`, starting at index `i`. -/
def maskBytesGo (key : List Nat) (i : Nat) : List Nat → List Nat
  | [] => []
  | b :: r => (b ^^^ key.getD (i % 4) 0) :: maskBytesGo key (i + 1) r

/-- Masking: `payload[i] ^= mask_key[i % 4]`. -/
def maskBytes (key : List Nat) (l : List Nat) : List Nat := maskBytesGo key 0 l

/-- `Reader::read_frame`: reads exactly one frame from the byte source,
returning the decoded frame and the unconsumed rest of the source. -/
def readFrame (maxPayloadSize : Nat) (input : List Nat) :
    Except FrameError (Frame × List Nat) :=
  match rdByte input with
  | .error e => .error e
  | .ok (h0, r0) =>
    match rdByte r0 with
    | .error e => .error e
    | .ok (h1, r1) =>
      let fin : Bool := h0 &&& 0x80 != 0
      let rsv1 : Bool := h0 &&& 0x40 != 0
      let rsv2 : Bool := h0 &&& 0x20 != 0
      let rsv3 : Bool := h0 &&& 0x10 != 0
      if rsv1 || rsv2 || rsv3 then .error .reservedBitsNotZero
      else
        match Opcode.ofByte (h0 &&& 0x0F) with
        | .error e => .error e
        | .ok opcode =>
          if opcode.isControl ∧ fin = false then .error (.invalidControlFin opcode.toByte)
          else
            let len7 := h1 &&& 0x7F
            let lenRes : Except FrameError (Nat × List Nat) :=
              if len7 = 126 then
                match readN 2 r1 with
                | .error e => .error e
                | .ok (lb, r) => .ok (beVal lb, r)
              else if len7 = 127 then
                match readN 8 r1 with
                | .error e => .error e
                | .ok (lb, r) => .ok (beVal lb, r)
              else .ok (len7, r1)
            match lenRes with
            | .error e => .error e
            | .ok (payloadLen, r2) =>
              if opcode = .ping ∧ payloadLen > 125 then .error .pingFrameTooLarge
              else
                let mask : Bool := h1 &&& 0x80 != 0
                let payloadRes : Except FrameError (List Nat × List Nat) :=
                  if mask then
                    match readN 4 r2 with
                    | .error e => .error e
                    | .ok (maskKey, ra) =>
                      match readN payloadLen ra with
                      | .error e => .error e
                      | .ok (raw, rb) => .ok (maskBytes maskKey raw, rb)
                  else readN payloadLen r2
                match payloadRes with
                | .error e => .error e
                | .ok (payload, r3) =>
                  if opcode = .close ∧ payload.length = 1 then .error .invalidCloseFrame
                  else if payload.length > maxPayloadSize then .error .frameTooLarge
                  else .ok ({ fin := fin, opcode := opcode,
                              len := payload.length, data := payload }, r3)

/-- `Reader::read`: loop reading frames and feeding the reassembler until a
complete message is emitted. The loop is given explicit fuel; the real loop
fails with an I/O error on an exhausted source, which fuel 0 models. -/
def readLoop (maxPayloadSize : Nat) :
    Nat → Fragments → List Nat → Except FrameError (Frame × Fragments × List Nat)
  | 0, _, _ => .error .io
  | fuel + 1, st, input =>
    match readFrame maxPayloadSize input with
    | .error e => .error e
    | .ok (f, rest) =>
      match st.accumulate f with
      | .error e => .error e
      | .ok (st', some res) => .ok (res, st', rest)
      | .ok (st', none) => readLoop maxPayloadSize fuel st' rest

/-! ## Frame encoder (`Writer::write_frame`) -/

/-- `u16::to_be_bytes`. -/
def be2 (n : Nat) : List Nat := [n / 256 % 256, n % 256]

/-- `u64::to_be_bytes`. -/
def be8 (n : Nat) : List Nat :=
  [n / 72057594037927936 % 256, n / 281474976710656 % 256,
   n / 1099511627776 % 256, n / 4294967296 % 256,
   n / 16777216 % 256, n / 65536 % 256, n / 256 % 256, n % 256]

/-- `Writer::write_frame`: the bytes written to the sink for one frame
(server side, unmasked). -/
def writeFrame (f : Frame) : List Nat :=
  let firstByte := (if f.fin then 0x80 else 0x00) ||| f.opcode.toByte
  let lenBytes :=
    if f.len ≤ 125 then [f.len]
    else if f.len ≤ 65535 then 126 :: be2 f.len
    else 127 :: be8 f.len
  firstByte :: lenBytes ++ f.data

/-- The encoder output re-interpreted as a client-to-server frame: MASK bit
set on the second byte, a 4-byte masking key inserted, and the payload
masked under that key. -/
def clientMasked (key : List Nat) (f : Frame) : List Nat :=
  match writeFrame f with
  | b0 :: b1 :: rest =>
    let hdrTailLen := if f.len ≤ 125 then 0 else if f.len ≤ 65535 then 2 else 8
    b0 :: (b1 ||| 0x80) :: (rest.take hdrTailLen ++ key ++ maskBytes key (rest.drop hdrTailLen))
  | l => l

/-! ## Handshake (`handshake.rs`)

Rust `String`s are modelled as `List Char`; the hashed bytes of an ASCII
string are the code points of its characters. -/

/-- Reduction modulo 2^32. -/
def m32 (n : Nat) : Nat := n % 4294967296

/-- 32-bit left rotation. -/
def rotl (s n : Nat) : Nat := m32 ((n <<< s) ||| (n >>> (32 - s)))

/-- SHA-1 padding: 0x80, zeros to 56 mod 64, then the 64-bit bit length. -/
def sha1Pad (msg : List Nat) : List Nat :=
  msg ++ 0x80 :: List.replicate ((55 + 64 - msg.length % 64) % 64) 0 ++ be8 (msg.length * 8)

/-- The 16 big-endian 32-bit words of one 64-byte block. -/
def chunkWords (block : List Nat) : List Nat :=
  (List.range 16).map (fun i => beVal ((block.drop (4 * i)).take 4))

/-- Extend the 16-word schedule by `k` more words. -/
def sha1Extend (k : Nat) (w : List Nat) : List Nat :=
  match k with
  | 0 => w
  | k + 1 =>
    let t := w.length
    let nw := rotl 1 ((w.getD (t - 3) 0) ^^^ (w.getD (t - 8) 0) ^^^
      (w.getD (t - 14) 0) ^^^ (w.getD (t - 16) 0))
    sha1Extend k (w ++ [nw])

/-- Round function and constant of SHA-1 round `t`. -/
def sha1FK (t b c d : Nat) : Nat × Nat :=
  if t < 20 then ((b &&& c) ||| ((4294967295 ^^^ b) &&& d), 0x5A827999)
  else if t < 40 then (b ^^^ c ^^^ d, 0x6ED9EBA1)
  else if t < 60 then ((b &&& c) ||| (b &&& d) ||| (c &&& d), 0x8F1BBCDC)
  else (b ^^^ c ^^^ d, 0xCA62C1D6)

/-- Compress one 80-word schedule into the running hash state. -/
def sha1Compress (h : List Nat) (w : List Nat) : List Nat :=
  let init := (h.getD 0 0, h.getD 1 0, h.getD 2 0, h.getD 3 0, h.getD 4 0)
  let fin := (List.range 80).foldl (fun (st : Nat × Nat × Nat × Nat × Nat) t =>
    let (a, b, c, d, e) := st
    let (f, k) := sha1FK t b c d
    let temp := m32 (rotl 5 a + f + e + k + w.getD t 0)
    (temp, a, rotl 30 b, c, d)) init
  [m32 (h.getD 0 0 + fin.1), m32 (h.getD 1 0 + fin.2.1), m32 (h.getD 2 0 + fin.2.2.1),
   m32 (h.getD 3 0 + fin.2.2.2.1), m32 (h.getD 4 0 + fin.2.2.2.2)]

/-- SHA-1 of a byte string, as its 20-byte digest. -/
def sha1 (msg : List Nat) : List Nat :=
  let padded := sha1Pad msg
  let hs := (List.range (padded.length / 64)).foldl
    (fun h i => sha1Compress h (sha1Extend 64 (chunkWords ((padded.drop (64 * i)).take 64))))
    [0x67452301, 0xEFCDAB89, 0x98BADCFE, 0x10325476, 0xC3D2E1F0]
  hs.foldr (fun x acc => (x / 16777216 % 256) :: (x / 65536 % 256) ::
    (x / 256 % 256) :: (x % 256) :: acc) []

/-- The standard Base64 alphabet. -/
def b64Alphabet : List Char :=
  "ABCDEFGHIJKLMNOPQRSTUVWXYZabcdefghijklmnopqrstuvwxyz0123456789+/".data

/-- Character of a 6-bit value. -/
def b64Char (n : Nat) : Char := b64Alphabet.getD n 'A'

/-- Standard Base64 encoding with `=` padding. -/
def base64Std : List Nat → List Char
  | a :: b :: c :: rest =>
    let n := a * 65536 + b * 256 + c
    b64Char (n / 262144 % 64) :: b64Char (n / 4096 % 64) ::
      b64Char (n / 64 % 64) :: b64Char (n % 64) :: base64Std rest
  | [a, b] =>
    let n := a * 65536 + b * 256
    [b64Char (n / 262144 % 64), b64Char (n / 4096 % 64), b64Char (n / 64 % 64), '=']
  | [a] =>
    let n := a * 65536
    [b64Char (n / 262144 % 64), b64Char (n / 4096 % 64), '=', '=']
  | [] => []

/-- `WEBSOCKET_GUID`. -/
def websocketGuid : List Char := "258EAFA5-E914-47DA-95CA-C5AB0DC85B11".data

/-- Bytes of an ASCII string. -/
def charBytes (s : List Char) : List Nat := s.map Char.toNat

/-- The Sec-WebSocket-Accept value: Base64 of SHA-1 of `key || GUID`. -/
def acceptKeyOf (key : List Char) : List Char :=
  base64Std (sha1 (charBytes (key ++ websocketGuid)))

/-- `generate_response`: the full 101 response for a given client key. -/
def generateResponse (key : List Char) : List Char :=
  "HTTP/1.1 101 Switching Protocols\r\nUpgrade: websocket\r\nConnection: Upgrade\r\nSec-WebSocket-Accept: ".data
    ++ acceptKeyOf key ++ "\r\n\r\n".data

/-- `hasSub needle hay`: `needle` occurs as a contiguous run inside `hay`. -/
def hasSub (needle : List Char) : List Char → Bool
  | [] => needle.isEmpty
  | c :: r => needle.isPrefixOf (c :: r) || hasSub needle r

/-- `HandshakeError`. -/
inductive HandshakeError where
  | io
  | missingHeader (name : List Char)
  | invalidHeader (reason : List Char)
deriving DecidableEq

/-- Rust `str::trim` (ASCII scope). -/
def trimChars (l : List Char) : List Char :=
  ((l.dropWhile Char.isWhitespace).reverse.dropWhile Char.isWhitespace).reverse

/-- Rust `str::trim_end` (ASCII scope). -/
def trimEndChars (l : List Char) : List Char :=
  (l.reverse.dropWhile Char.isWhitespace).reverse

/-- Rust `str::split_once(":")`: split at the first colon. -/
def splitOnceColon : List Char → Option (List Char × List Char)
  | [] => none
  | c :: r =>
    if c = ':' then some ([], r)
    else (splitOnceColon r).map (fun p => (c :: p.1, p.2))

/-- `HashMap::insert`: replace the value under an existing key, else add. -/
def insertHeader (m : List (List Char × List Char)) (k v : List Char) :
    List (List Char × List Char) :=
  if m.any (fun p => p.1 == k) then m.map (fun p => if p.1 == k then (k, v) else p)
  else m ++ [(k, v)]

/-- `HashMap::get` / lookup by key. -/
def getHeader (m : List (List Char × List Char)) (k : List Char) : Option (List Char) :=
  (m.find? (fun p => p.1 == k)).map (fun p => p.2)

/-- The header-line loop of `read_http_headers`: stop at EOF or a blank line,
require a colon in every header line. -/
def parseHeaderLines (acc : List (List Char × List Char)) :
    List (List Char) → Except HandshakeError (List (List Char × List Char))
  | [] => .ok acc
  | line :: rest =>
    if trimChars line = [] then .ok acc
    else
      match splitOnceColon line with
      | some kv => parseHeaderLines (insertHeader acc (trimChars kv.1) (trimChars kv.2)) rest
      | none => .error (.invalidHeader "Invalid header format".data)

/-- `read_http_headers`: request line must start with GET, then header lines.
The input models the sequence of lines delivered by `read_line`. -/
def readHttpHeaders (lines : List (List Char)) :
    Except HandshakeError (List (List Char × List Char)) :=
  if !("GET".data.isPrefixOf (trimEndChars (lines.headD []))) then
    .error (.invalidHeader "Must be GET request".data)
  else parseHeaderLines [] lines.tail

/-- `REQUIRED_HEADERS`. -/
def requiredHeaders : List (List Char) :=
  ["Sec-WebSocket-Key".data, "Upgrade".data, "Connection".data]

/-- `validate_headers`. -/
def validateHeaders (m : List (List Char × List Char)) : Except HandshakeError Unit :=
  match requiredHeaders.find? (fun h => !(m.any (fun p => p.1 == h))) with
  | some h => .error (.missingHeader h)
  | none =>
    if (getHeader m "Upgrade".data).map (fun v => v.map Char.toLower) ≠ some "websocket".data then
      .error (.invalidHeader "Upgrade header must be websocket".data)
    else if (getHeader m "Connection".data).map (fun v => v.map Char.toLower) ≠ some "upgrade".data then
      .error (.invalidHeader "Connection header must be upgrade".data)
    else .ok ()

/-- `do_handshake`: parse and validate the upgrade request, produce the 101
response that is written to the socket. -/
def doHandshake (lines : List (List Char)) : Except HandshakeError (List Char) := do
  let headers ← readHttpHeaders lines
  let _ ← validateHeaders headers
  .ok (generateResponse ((getHeader headers "Sec-WebSocket-Key".data).getD []))

/-! ## Close reply construction (`Frame::new_close_reply`) -/

/-- `Frame::new_close_reply`. -/
def Frame.newCloseReply (data : List Nat) : Except FrameError Frame :=
  match data with
  | [] => .ok (Frame.new .close data)
  | [_] => .error .invalidCloseFrame
  | d0 :: d1 :: rest =>
    let code := CloseCode.ofU16 (d0 * 256 + d1)
    if !code.isAllowed then .ok (Frame.close 1002 rest)
    else if rest.length > 0 && !validUtf8 rest then .error .invalidUTF8
    else .ok (Frame.new .close data)

/-! ## Statement helpers -/

/-- The pending bytes held by an optional stash. -/
def pendBytes : Option (List Nat) → List Nat
  | none => []
  | some l => l

/-- The stash holding a (nonempty) byte list, `none` for the empty list. -/
def bytesPend (l : List Nat) : Option (List Nat) :=
  if l = [] then none else some l

/-- Concatenation of a list of byte lists. -/
def catBytes (ps : List (List Nat)) : List Nat := ps.foldr (fun a b => a ++ b) []

/-- A Text message properly fragmented as: first Text frame `fin=false` with
payload `p0`, then Continuation frames `fin=false` for `mid`, then a final
Continuation frame `fin=true` with payload `plast`. -/
def textFragFrames (p0 : List Nat) (mid : List (List Nat)) (plast : List Nat) : List Frame :=
  { fin := false, opcode := .text, len := p0.length, data := p0 } ::
    mid.map (fun q => { fin := false, opcode := .continuation, len := q.length, data := q }) ++
    [{ fin := true, opcode := .continuation, len := plast.length, data := plast }]

/-- The S7 upgrade request of the spec, as the lines read from the socket. -/
def s7RequestLines : List (List Char) :=
  ["GET / HTTP/1.1\r\n".data,
   "Host: localhost:8080\r\n".data,
   "Upgrade: websocket\r\n".data,
   "Connection: Upgrade\r\n".data,
   "Sec-WebSocket-Key: dGhlIHNhbXBsZSBub25jZQ==\r\n".data,
   "\r\n".data]

/-! ## Infrastructure lemmas -/

/-- `readN` on a source starting with exactly `n` bytes splits it. -/
theorem readN_exact (n : Nat) (xs rest : List Nat) (h : xs.length = n) :
    readN n (xs ++ rest) = .ok (xs, rest) := by
  subst h
  simp [readN, List.take_left, List.drop_left]

/-- `readN` consuming the whole source. -/
theorem readN_all (n : Nat) (xs : List Nat) (h : xs.length = n) :
    readN n xs = .ok (xs, []) := by
  simpa using readN_exact n xs [] h

/-- `readN` on a too-short source fails with the I/O error. -/
theorem readN_short (n : Nat) (xs : List Nat) (h : xs.length < n) :
    readN n xs = .error .io := by
  simp only [readN]
  rw [if_neg]
  omega

/-- `maskBytesGo` preserves length. -/
theorem maskBytesGo_length (key : List Nat) (i : Nat) (l : List Nat) :
    (maskBytesGo key i l).length = l.length := by
  induction l generalizing i with
  | nil => rfl
  | cons b r ih => simp [maskBytesGo, ih]

/-- Masking twice with the same key restores the payload. -/
theorem maskBytesGo_invol (key : List Nat) (i : Nat) (l : List Nat) :
    maskBytesGo key i (maskBytesGo key i l) = l := by
  induction l generalizing i with
  | nil => rfl
  | cons b r ih =>
    simp only [maskBytesGo, ih]
    rw [Nat.xor_assoc, Nat.xor_self, Nat.xor_zero]

/-- `maskBytes` preserves length. -/
theorem maskBytes_length (key : List Nat) (l : List Nat) :
    (maskBytes key l).length = l.length := maskBytesGo_length key 0 l

/-- `maskBytes` is an involution. -/
theorem maskBytes_invol (key : List Nat) (l : List Nat) :
    maskBytes key (maskBytes key l) = l := maskBytesGo_invol key 0 l

/-- Decoding the 2-byte big-endian encoding. -/
theorem beVal_be2 (n : Nat) (h : n < 65536) : beVal (be2 n) = n := by
  simp [beVal, be2, List.foldl]
  omega

/-- Decoding the 8-byte big-endian encoding. -/
theorem beVal_be8 (n : Nat) (h : n < 18446744073709551616) : beVal (be8 n) = n := by
  simp [beVal, be8, List.foldl]
  omega

/-- Decoding an unmasked Binary frame declaring payload length 2048 whose
full body is present: the result depends only on the size check. -/
theorem readFrame_decl2048 (max : Nat) (body : List Nat) (h : body.length = 2048) :
    readFrame max ([0x82, 126, 8, 0] ++ body) =
      if 2048 > max then .error .frameTooLarge
      else .ok ({ fin := true, opcode := .binary, len := 2048, data := body }, []) := by
  have e1 : ([0x82, 126, 8, 0] ++ body : List Nat) = 0x82 :: 126 :: ([8, 0] ++ body) := rfl
  rw [e1]
  simp only [readFrame, rdByte]
  rw [readN_exact 2 [8, 0] body rfl]
  simp only [show (130 : Nat) &&& 64 = 0 from rfl, show (130 : Nat) &&& 32 = 0 from rfl,
    show (130 : Nat) &&& 16 = 0 from rfl, show (130 : Nat) &&& 15 = 2 from rfl,
    show ((130 : Nat) &&& 128 != 0) = true from rfl, show (126 : Nat) &&& 127 = 126 from rfl,
    show (126 : Nat) &&& 128 = 0 from rfl, show beVal [8, 0] = 2048 from rfl,
    Opcode.ofByte, Opcode.isControl]
  norm_num
  rw [readN_all 2048 body h]
  norm_num [h]
  intro hc
  cases hc

/-- Decoding the same header when the body is incomplete fails with the I/O
error of `read_exact`, before the size check is ever reached. -/
theorem readFrame_decl2048_short (max : Nat) (body : List Nat) (h : body.length < 2048) :
    readFrame max ([0x82, 126, 8, 0] ++ body) = .error .io := by
  have e1 : ([0x82, 126, 8, 0] ++ body : List Nat) = 0x82 :: 126 :: ([8, 0] ++ body) := rfl
  rw [e1]
  simp only [readFrame, rdByte]
  rw [readN_exact 2 [8, 0] body rfl]
  simp only [show (130 : Nat) &&& 64 = 0 from rfl, show (130 : Nat) &&& 32 = 0 from rfl,
    show (130 : Nat) &&& 16 = 0 from rfl, show (130 : Nat) &&& 15 = 2 from rfl,
    show ((130 : Nat) &&& 128 != 0) = true from rfl, show (126 : Nat) &&& 127 = 126 from rfl,
    show (126 : Nat) &&& 128 = 0 from rfl, show beVal [8, 0] = 2048 from rfl,
    Opcode.ofByte, Opcode.isControl]
  norm_num
  rw [readN_short 2048 body h]
  simp

/-- Helper: the close-code conversions round-trip on every `Nat`. -/
theorem c10_nat (c : Nat) : CloseCode.toU16 (CloseCode.ofU16 c) = c := by
  unfold CloseCode.ofU16
  by_cases h1 : c = 1000
  · rw [if_pos h1, h1]
    rfl
  rw [if_neg h1]
  by_cases h2 : c = 1001
  · rw [if_pos h2, h2]
    rfl
  rw [if_neg h2]
  by_cases h3 : c = 1002
  · rw [if_pos h3, h3]
    rfl
  rw [if_neg h3]
  by_cases h4 : c = 1003
  · rw [if_pos h4, h4]
    rfl
  rw [if_neg h4]
  by_cases h5 : c = 1005
  · rw [if_pos h5, h5]
    rfl
  rw [if_neg h5]
  by_cases h6 : c = 1006
  · rw [if_pos h6, h6]
    rfl
  rw [if_neg h6]
  by_cases h7 : c = 1007
  · rw [if_pos h7, h7]
    rfl
  rw [if_neg h7]
  by_cases h8 : c = 1008
  · rw [if_pos h8, h8]
    rfl
  rw [if_neg h8]
  by_cases h9 : c = 1009
  · rw [if_pos h9, h9]
    rfl
  rw [if_neg h9]
  by_cases h10 : c = 1010
  · rw [if_pos h10, h10]
    rfl
  rw [if_neg h10]
  by_cases h11 : c = 1011
  · rw [if_pos h11, h11]
    rfl
  rw [if_neg h11]
  by_cases h12 : c = 1012
  · rw [if_pos h12, h12]
    rfl
  rw [if_neg h12]
  by_cases h13 : c = 1013
  · rw [if_pos h13, h13]
    rfl
  rw [if_neg h13]
  by_cases h14 : c = 1015
  · rw [if_pos h14, h14]
    rfl
  rw [if_neg h14]
  by_cases h15 : 1 ≤ c ∧ c ≤ 999
  · rw [if_pos h15]
    rfl
  rw [if_neg h15]
  by_cases h16 : 1016 ≤ c ∧ c ≤ 2999
  · rw [if_pos h16]
    rfl
  rw [if_neg h16]
  by_cases h17 : 3000 ≤ c ∧ c ≤ 4999
  · rw [if_pos h17]
    rfl
  rw [if_neg h17]
  rfl

/-- Helper: precise characterisation of `is_allowed` after `From<u16>`:
allowed exactly on 1000–1003, 1007–1013 and 3000–4999. -/
theorem isAllowed_ofU16 (c : Nat) : (CloseCode.ofU16 c).isAllowed =
    ((1000 ≤ c && c ≤ 1003) || (1007 ≤ c && c ≤ 1013) || (3000 ≤ c && c ≤ 4999)) := by
  unfold CloseCode.ofU16
  by_cases h1 : c = 1000
  · subst h1
    rfl
  rw [if_neg h1]
  by_cases h2 : c = 1001
  · subst h2
    rfl
  rw [if_neg h2]
  by_cases h3 : c = 1002
  · subst h3
    rfl
  rw [if_neg h3]
  by_cases h4 : c = 1003
  · subst h4
    rfl
  rw [if_neg h4]
  by_cases h5 : c = 1005
  · subst h5
    rfl
  rw [if_neg h5]
  by_cases h6 : c = 1006
  · subst h6
    rfl
  rw [if_neg h6]
  by_cases h7 : c = 1007
  · subst h7
    rfl
  rw [if_neg h7]
  by_cases h8 : c = 1008
  · subst h8
    rfl
  rw [if_neg h8]
  by_cases h9 : c = 1009
  · subst h9
    rfl
  rw [if_neg h9]
  by_cases h10 : c = 1010
  · subst h10
    rfl
  rw [if_neg h10]
  by_cases h11 : c = 1011
  · subst h11
    rfl
  rw [if_neg h11]
  by_cases h12 : c = 1012
  · subst h12
    rfl
  rw [if_neg h12]
  by_cases h13 : c = 1013
  · subst h13
    rfl
  rw [if_neg h13]
  by_cases h14 : c = 1015
  · subst h14
    rfl
  rw [if_neg h14]
  by_cases h15 : 1 ≤ c ∧ c ≤ 999
  · rw [if_pos h15]
    simp [CloseCode.isAllowed]
    omega
  rw [if_neg h15]
  by_cases h16 : 1016 ≤ c ∧ c ≤ 2999
  · rw [if_pos h16]
    simp [CloseCode.isAllowed]
    omega
  rw [if_neg h16]
  by_cases h17 : 3000 ≤ c ∧ c ≤ 4999
  · rw [if_pos h17]
    simp [CloseCode.isAllowed]
    omega
  rw [if_neg h17]
  simp [CloseCode.isAllowed]
  omega

/-- Helper: `new_close_reply` follows the spec case split. -/
theorem c6_first (data : List Nat) :
    Frame.newCloseReply data =
      (if data.length = 0 then
        .ok { fin := true, opcode := .close, len := 0, data := [] }
      else if data.length = 1 then .error .invalidCloseFrame
      else if (CloseCode.ofU16 (data.getD 0 0 * 256 + data.getD 1 0)).isAllowed = false then
        .ok { fin := true, opcode := .close, len := 2 + (data.drop 2).length,
              data := 3 :: 234 :: data.drop 2 }
      else if 2 < data.length ∧ validUtf8 (data.drop 2) = false then .error .invalidUTF8
      else .ok { fin := true, opcode := .close, len := data.length, data := data }) := by
  match data with
  | [] => simp [Frame.newCloseReply, Frame.new]
  | [d0] => simp [Frame.newCloseReply]
  | d0 :: d1 :: rest =>
    by_cases hA : (CloseCode.ofU16 (d0 * 256 + d1)).isAllowed
    · by_cases h0 : 0 < rest.length
      · by_cases hV : validUtf8 rest
        · simp [Frame.newCloseReply, Frame.new, hA, h0, hV]
        · simp [Frame.newCloseReply, Frame.new, hA, h0, hV]
      · simp [Frame.newCloseReply, Frame.new, hA, h0]
    · simp [Frame.newCloseReply, Frame.new, Frame.close, hA]
      omega

/-! ## Claim theorems -/

/-- Claim C1 (counter-evidence): a Binary frame with `fin=false` arriving
while a fragmented message is in progress is not rejected with
`InvalidFragment`; `Fragments::accumulate` returns `None` and replaces the
in-progress fragment buffer `[0]` with the new frame's payload `[1]`. -/
theorem c1_fin_false_replaces_fragment :
    runFrames Fragments.new
        [{ fin := false, opcode := .binary, len := 1, data := [0] },
         { fin := false, opcode := .binary, len := 1, data := [1] }]
      = .ok ({ fragments := some (.binary [1]), opCode := .binary }, [none, none]) := by
  decide

/-- Claim C2 (counter-evidence): a final Continuation with `fin=true` in
state `Some(Text)` that leaves a stashed incomplete UTF-8 byte (`0xC3`)
does not yield `InvalidUTF8`; the reassembled Text frame is emitted with
the stashed byte silently dropped. -/
theorem c2_trailing_incomplete_emitted :
    runFrames Fragments.new
        [{ fin := false, opcode := .text, len := 1, data := [0x61] },
         { fin := true, opcode := .continuation, len := 1, data := [0xC3] }]
      = .ok ({ fragments := none, opCode := .text },
             [none, some { fin := true, opcode := .text, len := 1, data := [0x61] }]) := by
  decide

/-- Claim C3 (counter-evidence): with `max_payload_size = 1`, two accepted
one-byte fragments reassemble into an emitted frame of length 2, so the
cumulative buffered length and the emitted frame both exceed
`max_payload_size`. -/
theorem c3_cumulative_size_not_enforced :
    readLoop 1 3 Fragments.new [0x02, 0x01, 0x00, 0x80, 0x01, 0x00]
        = .ok ({ fin := true, opcode := .binary, len := 2, data := [0, 0] },
               { fragments := none, opCode := .binary }, [])
      ∧ ({ fin := true, opcode := .binary, len := 2, data := [0, 0] } : Frame).data.length > 1 := by
  decide

/-- Claim C5 (counterexample): the round-trip fails for the frame
`{fin=true, opcode=Close, data=[3]}`: its 1-byte close payload makes the
decoder return `InvalidCloseFrame` instead of the frame. -/
theorem c5_close_len1_not_roundtrip :
    readFrame 1024 (clientMasked [0, 0, 0, 0]
        { fin := true, opcode := .close, len := 1, data := [3] })
      = .error .invalidCloseFrame ∧
    readFrame 1024 (clientMasked [0, 0, 0, 0]
        { fin := true, opcode := .close, len := 1, data := [3] })
      ≠ .ok ({ fin := true, opcode := .close, len := 1, data := [3] }, []) := by
  decide

/-- Claim C7 (counterexample): a client-to-server Text frame with the MASK
bit clear is decoded successfully, not rejected with a protocol error. -/
theorem c7_unmasked_frame_accepted :
    readFrame 1024 [0x81, 0x02, 0x48, 0x69]
      = .ok ({ fin := true, opcode := .text, len := 2, data := [0x48, 0x69] }, []) := by
  decide

/-- Claim C8 (counterexample): with `max_payload_size = 1024` and a byte
source holding only the 4-byte header of a Binary frame declaring payload
length 2048, `read_frame` fails with the I/O error from `read_exact`, not
with `FrameTooLarge`. -/
theorem c8_header_only_gives_io :
    readFrame 1024 [0x82, 126, 8, 0] = .error .io ∧
    readFrame 1024 [0x82, 126, 8, 0] ≠ .error .frameTooLarge := by
  decide

/-- Claim C8 (amended): `FrameTooLarge` is produced only after the declared
payload has been read: the full 2052-byte input yields `FrameTooLarge`,
while the same input missing its last payload byte yields the I/O error. -/
theorem c8_too_large_after_reading_payload :
    readFrame 1024 ([0x82, 126, 8, 0] ++ List.replicate 2048 0) = .error .frameTooLarge ∧
    readFrame 1024 ([0x82, 126, 8, 0] ++ List.replicate 2047 0) = .error .io := by
  constructor
  · rw [readFrame_decl2048 1024 (List.replicate 2048 0) (List.length_replicate 2048 0)]
    norm_num
  · rw [readFrame_decl2048_short 1024 (List.replicate 2047 0) (by rw [List.length_replicate]; omega)]

/-- Claim C10: converting any 16-bit integer to a `CloseCode` and back is
the identity, over the entire `u16` range. -/
theorem c10_close_code_roundtrip :
    ∀ c : Fin 65536, CloseCode.toU16 (CloseCode.ofU16 c.val) = c.val := by
  intro c
  exact c10_nat c.val

set_option maxRecDepth 10000 in
/-- Claim C9: the accept key is the standard Base64 of the SHA-1 digest of
the client key concatenated with the fixed GUID; on the S7 upgrade request
carrying the RFC sample key, `do_handshake` produces the 101 response
containing `Sec-WebSocket-Accept: s3pPLMBiTxaQ9kYGzzhZRbK+xOo=`. -/
theorem c9_handshake_accept :
    doHandshake s7RequestLines = .ok (generateResponse "dGhlIHNhbXBsZSBub25jZQ==".data) ∧
    hasSub "Sec-WebSocket-Accept: s3pPLMBiTxaQ9kYGzzhZRbK+xOo=".data
        (generateResponse "dGhlIHNhbXBsZSBub25jZQ==".data) = true ∧
    acceptKeyOf "dGhlIHNhbXBsZSBub25jZQ==".data = "s3pPLMBiTxaQ9kYGzzhZRbK+xOo=".data := by
  decide

/-- Claim C6: `Frame::new_close_reply` returns the empty Close frame for an
empty payload, `InvalidCloseFrame` for a 1-byte payload, a Close frame with
code 1002 (bytes `03 EA`) followed by the original reason bytes when the
big-endian code of the first two bytes is not allowed, `InvalidUTF8` when the
code is allowed but the remainder is not valid UTF-8, and otherwise echoes
the payload verbatim; and `is_allowed` after `From<u16>` is false exactly
outside 1000–1003, 1007–1013 and 3000–4999 (i.e. for 1005, 1006, 1015, the
reserved codes and the out-of-range codes). -/
theorem c6_close_reply_spec :
    (∀ data : List Nat,
      Frame.newCloseReply data =
        (if data.length = 0 then
          .ok { fin := true, opcode := .close, len := 0, data := [] }
        else if data.length = 1 then .error .invalidCloseFrame
        else if (CloseCode.ofU16 (data.getD 0 0 * 256 + data.getD 1 0)).isAllowed = false then
          .ok { fin := true, opcode := .close, len := 2 + (data.drop 2).length,
                data := 3 :: 234 :: data.drop 2 }
        else if 2 < data.length ∧ validUtf8 (data.drop 2) = false then .error .invalidUTF8
        else .ok { fin := true, opcode := .close, len := data.length, data := data })) ∧
    (∀ c : Fin 65536, (CloseCode.ofU16 c.val).isAllowed =
        ((1000 ≤ c.val && c.val ≤ 1003) || (1007 ≤ c.val && c.val ≤ 1013) ||
         (3000 ≤ c.val && c.val ≤ 4999))) :=
  ⟨c6_first, fun c => isAllowed_ofU16 c.val⟩

theorem feedAll_append (l1 l2 : List Nat) (st : List Nat × List Nat) :
    feedAll st (l1 ++ l2) =
      match feedAll st l1 with
      | none => none
      | some st' => feedAll st' l2 := by
  induction l1 generalizing st with
  | nil => simp [feedAll]
  | cons b r ih =>
    simp only [List.cons_append, feedAll]
    cases feed st b with
    | none => rfl
    | some st' => exact ih st'

theorem feedAll_sum (l : List Nat) :
    ∀ v p v' p', feedAll (v, p) l = some (v', p') → v' ++ p' = v ++ p ++ l := by
  induction l with
  | nil =>
    intro v p v' p' h
    rw [feedAll] at h
    cases h
    simp
  | cons b r ih =>
    intro v p v' p' h
    rw [feedAll] at h
    by_cases hc : charOk (p ++ [b]) = true
    · rw [show feed (v, p) b = some (v ++ (p ++ [b]), []) from by simp [feed, hc]] at h
      have := ih (v ++ (p ++ [b])) [] v' p' h
      simp only [List.append_nil] at this
      simp [this, List.append_assoc]
    · by_cases hv : viablePre (p ++ [b]) = true
      · rw [show feed (v, p) b = some (v, p ++ [b]) from by simp [feed, hc, hv]] at h
        have := ih v (p ++ [b]) v' p' h
        simp [this, List.append_assoc]
      · rw [show feed (v, p) b = none from by simp [feed, hc, hv]] at h
        cases h

theorem feedAll_shift (l : List Nat) :
    ∀ b v p, feedAll (b ++ v, p) l = Option.map (fun s => (b ++ s.1, s.2)) (feedAll (v, p) l) := by
  induction l with
  | nil => intro b v p; simp [feedAll]
  | cons x r ih =>
    intro b v p
    rw [feedAll, feedAll]
    by_cases hc : charOk (p ++ [x]) = true
    · rw [show feed (b ++ v, p) x = some (b ++ v ++ (p ++ [x]), []) from by simp [feed, hc],
        show feed (v, p) x = some (v ++ (p ++ [x]), []) from by simp [feed, hc]]
      rw [List.append_assoc]
      exact ih b (v ++ (p ++ [x])) []
    · by_cases hv : viablePre (p ++ [x]) = true
      · rw [show feed (b ++ v, p) x = some (b ++ v, p ++ [x]) from by simp [feed, hc, hv],
          show feed (v, p) x = some (v, p ++ [x]) from by simp [feed, hc, hv]]
        exact ih b v (p ++ [x])
      · rw [show feed (b ++ v, p) x = none from by simp [feed, hc, hv],
          show feed (v, p) x = none from by simp [feed, hc, hv]]
        rfl

theorem tryComplete_feedAll (d : List Nat) :
    ∀ pend buf,
      feedAll (buf, pend) d =
        match tryComplete pend d with
        | .needMore ns => some (buf, ns)
        | .done c rest => feedAll (buf ++ c, []) rest
        | .failed _ => none := by
  induction d with
  | nil => intro pend buf; simp [feedAll, tryComplete]
  | cons b r ih =>
    intro pend buf
    rw [feedAll, tryComplete]
    by_cases hc : charOk (pend ++ [b]) = true
    · rw [show feed (buf, pend) b = some (buf ++ (pend ++ [b]), []) from by simp [feed, hc]]
      simp only [hc, if_pos]
    · by_cases hv : viablePre (pend ++ [b]) = true
      · rw [show feed (buf, pend) b = some (buf, pend ++ [b]) from by simp [feed, hc, hv]]
        rw [if_neg hc, if_pos hv]
        exact ih (pend ++ [b]) buf
      · rw [show feed (buf, pend) b = none from by simp [feed, hc, hv]]
        rw [if_neg hc, if_neg hv]

theorem tryComplete_needMore (d : List Nat) :
    ∀ pend ns, tryComplete pend d = .needMore ns → ns = pend ++ d := by
  induction d with
  | nil =>
    intro pend ns h
    rw [tryComplete] at h
    cases h
    simp
  | cons b r ih =>
    intro pend ns h
    rw [tryComplete] at h
    by_cases hc : charOk (pend ++ [b]) = true
    · rw [if_pos hc] at h
      cases h
    · by_cases hv : viablePre (pend ++ [b]) = true
      · rw [if_neg hc, if_pos hv] at h
        have := ih (pend ++ [b]) ns h
        simp [this, List.append_assoc]
      · rw [if_neg hc, if_neg hv] at h
        cases h

theorem pendBytes_bytesPend (l : List Nat) : pendBytes (bytesPend l) = l := by
  by_cases h : l = [] <;> simp [bytesPend, pendBytes, h]

theorem utf8Decode_nil : utf8Decode [] = .ok := rfl

theorem decode_branch_eq (buf1 tail : List Nat) (oc : Opcode) (fin : Bool) :
    (match utf8Decode tail with
     | .ok =>
       if fin then
         (.ok ({ fragments := none, opCode := oc },
            some (Frame.new oc (buf1 ++ tail))) : Except FrameError (Fragments × Option Frame))
       else .ok ({ fragments := some (.text none (buf1 ++ tail)), opCode := oc }, none)
     | .incomplete v p =>
       if fin then .ok ({ fragments := none, opCode := oc }, some (Frame.new oc (buf1 ++ v)))
       else .ok ({ fragments := some (.text (some p) (buf1 ++ v)), opCode := oc }, none)
     | .invalid => .error .invalidUTF8) =
    (match feedAll (buf1, []) tail with
     | none => .error .invalidUTF8
     | some (buf', pend') =>
       if fin then .ok ({ fragments := none, opCode := oc }, some (Frame.new oc buf'))
       else .ok ({ fragments := some (.text (bytesPend pend') buf'), opCode := oc }, none)) := by
  have hs := feedAll_shift tail buf1 [] []
  rw [List.append_nil] at hs
  rw [hs]
  cases hfa : feedAll ([], []) tail with
  | none => simp [utf8Decode, hfa]
  | some s =>
    obtain ⟨v, p⟩ := s
    have hvp : v ++ p = tail := by simpa using feedAll_sum tail [] [] v p hfa
    cases p with
    | nil =>
      have hv : v = tail := by simpa using hvp
      simp [utf8Decode, hfa, hv, bytesPend]
    | cons q qs =>
      simp [utf8Decode, hfa, bytesPend]

theorem accumulate_text_cont (pend : Option (List Nat)) (buf : List Nat) (oc : Opcode)
    (fin : Bool) (len : Nat) (d : List Nat) (hne : pend ≠ some []) :
    Fragments.accumulate { fragments := some (.text pend buf), opCode := oc }
        { fin := fin, opcode := .continuation, len := len, data := d } =
      match feedAll (buf, pendBytes pend) d with
      | none => .error .invalidUTF8
      | some (buf', pend') =>
        if fin then
          .ok ({ fragments := none, opCode := oc }, some (Frame.new oc buf'))
        else
          .ok ({ fragments := some (.text (bytesPend pend') buf'), opCode := oc }, none) := by
  cases pend with
  | none =>
    show (match utf8Decode d with
      | .ok =>
        if fin then
          (.ok ({ fragments := none, opCode := oc },
             some (Frame.new oc (buf ++ d))) : Except FrameError (Fragments × Option Frame))
        else .ok ({ fragments := some (.text none (buf ++ d)), opCode := oc }, none)
      | .incomplete v p =>
        if fin then .ok ({ fragments := none, opCode := oc }, some (Frame.new oc (buf ++ v)))
        else .ok ({ fragments := some (.text (some p) (buf ++ v)), opCode := oc }, none)
      | .invalid => .error .invalidUTF8) = _
    rw [decode_branch_eq buf d oc fin]
    rfl
  | some inc =>
    have hinc : inc ≠ [] := by
      intro h
      exact hne (by rw [h])
    rw [show pendBytes (some inc) = inc from rfl]
    rw [tryComplete_feedAll d inc buf]
    simp only [Fragments.accumulate]
    cases htc : tryComplete inc d with
    | done txt rest =>
      show (match utf8Decode rest with
        | .ok =>
          if fin then
            (.ok ({ fragments := none, opCode := oc },
               some (Frame.new oc (buf ++ txt ++ rest))) : Except FrameError (Fragments × Option Frame))
          else .ok ({ fragments := some (.text none (buf ++ txt ++ rest)), opCode := oc }, none)
        | .incomplete v p =>
          if fin then .ok ({ fragments := none, opCode := oc }, some (Frame.new oc (buf ++ txt ++ v)))
          else .ok ({ fragments := some (.text (some p) (buf ++ txt ++ v)), opCode := oc }, none)
        | .invalid => .error .invalidUTF8) = _
      rw [decode_branch_eq (buf ++ txt) rest oc fin]
    | needMore ns =>
      have hns : ns ≠ [] := by
        rw [tryComplete_needMore d inc ns htc]
        simp [hinc]
      show (if fin then
          (.ok ({ fragments := none, opCode := oc },
             some (Frame.new oc (buf ++ []))) : Except FrameError (Fragments × Option Frame))
        else .ok ({ fragments := some (.text (some ns) (buf ++ [])), opCode := oc }, none)) =
        (if fin then .ok ({ fragments := none, opCode := oc }, some (Frame.new oc buf))
         else .ok ({ fragments := some (.text (bytesPend ns) buf), opCode := oc }, none))
      rw [show bytesPend ns = some ns from by simp [bytesPend, hns]]
      simp only [List.append_nil]
    | failed rest =>
      rfl

theorem bytesPend_ne_some_nil (l : List Nat) : bytesPend l ≠ some [] := by
  by_cases h : l = [] <;> simp [bytesPend, h]

theorem validUtf8_feedAll (l : List Nat) (h : validUtf8 l = true) :
    feedAll ([], []) l = some (l, []) := by
  unfold validUtf8 utf8Decode at h
  cases hfa : feedAll ([], []) l with
  | none => rw [hfa] at h; simp at h
  | some s =>
    obtain ⟨v, p⟩ := s
    rw [hfa] at h
    cases p with
    | nil =>
      have hv : v = l := by simpa using feedAll_sum l [] [] v [] hfa
      rw [hv]
    | cons q qs => simp at h

theorem accumulate_text_start (len : Nat) (d v p : List Nat)
    (h : feedAll ([], []) d = some (v, p)) :
    Fragments.accumulate Fragments.new { fin := false, opcode := .text, len := len, data := d }
      = .ok ({ fragments := some (.text (bytesPend p) v), opCode := .text }, none) := by
  show (match utf8Decode d with
    | .ok =>
      (.ok ({ fragments := some (.text none d), opCode := .text },
        none) : Except FrameError (Fragments × Option Frame))
    | .incomplete v p => .ok ({ fragments := some (.text (some p) v), opCode := .text }, none)
    | .invalid => .error .invalidUTF8) = _
  cases p with
  | nil =>
    have hv : v = d := by simpa using feedAll_sum d [] [] v [] h
    simp [utf8Decode, h, hv, bytesPend]
  | cons q qs =>
    simp [utf8Decode, h, bytesPend]

theorem runFrames_nil (st : Fragments) : runFrames st [] = .ok (st, []) := rfl

theorem runFrames_cons (st : Fragments) (f : Frame) (fs : List Frame) :
    runFrames st (f :: fs) =
      match st.accumulate f with
      | .error e => .error e
      | .ok (st', out) =>
        match runFrames st' fs with
        | .error e => .error e
        | .ok (st'', outs) => .ok (st'', out :: outs) := rfl


theorem runFrames_text_tail (plast : List Nat) (mid : List (List Nat)) :
    ∀ (processed v p : List Nat),
      feedAll ([], []) processed = some (v, p) →
      feedAll ([], []) (processed ++ (catBytes mid ++ plast))
          = some (processed ++ (catBytes mid ++ plast), []) →
      runFrames { fragments := some (.text (bytesPend p) v), opCode := .text }
          (mid.map (fun q => { fin := false, opcode := .continuation, len := q.length, data := q })
            ++ [{ fin := true, opcode := .continuation, len := plast.length, data := plast }])
        = .ok ({ fragments := none, opCode := .text },
               List.replicate mid.length none ++
                 [some (Frame.new .text (processed ++ (catBytes mid ++ plast)))]) := by
  induction mid with
  | nil =>
    intro processed v p h1 h2
    have hcat : catBytes ([] : List (List Nat)) = [] := rfl
    rw [hcat, List.nil_append] at h2 ⊢
    rw [feedAll_append processed plast ([], []), h1] at h2
    change feedAll (v, p) plast = _ at h2
    simp only [List.map_nil, List.nil_append, List.length_nil, List.replicate_zero]
    rw [runFrames_cons]
    rw [accumulate_text_cont (bytesPend p) v .text true plast.length plast (bytesPend_ne_some_nil p)]
    rw [pendBytes_bytesPend, h2]
    rfl
  | cons q rest ih =>
    intro processed v p h1 h2
    have hcat : processed ++ (catBytes (q :: rest) ++ plast)
        = processed ++ (q ++ (catBytes rest ++ plast)) := by
      simp [catBytes, List.append_assoc]
    rw [hcat] at h2
    have h2' := h2
    rw [feedAll_append processed (q ++ (catBytes rest ++ plast)) ([], []), h1] at h2'
    change feedAll (v, p) (q ++ (catBytes rest ++ plast)) = _ at h2'
    rw [feedAll_append q (catBytes rest ++ plast) (v, p)] at h2'
    cases hq : feedAll (v, p) q with
    | none => rw [hq] at h2'; cases h2'
    | some s =>
      obtain ⟨v', p'⟩ := s
      rw [hq] at h2'
      have h1' : feedAll ([], []) (processed ++ q) = some (v', p') := by
        rw [feedAll_append processed q ([], []), h1]
        exact hq
      have h2'' : feedAll ([], []) ((processed ++ q) ++ (catBytes rest ++ plast))
          = some ((processed ++ q) ++ (catBytes rest ++ plast), []) := by
        rw [feedAll_append (processed ++ q) (catBytes rest ++ plast) ([], []), h1']
        rw [List.append_assoc]
        exact h2'
      have hrec := ih (processed ++ q) v' p' h1' h2''
      rw [List.map_cons, List.cons_append, runFrames_cons]
      rw [accumulate_text_cont (bytesPend p) v .text false q.length q (bytesPend_ne_some_nil p)]
      rw [pendBytes_bytesPend, hq]
      show (match runFrames { fragments := some (.text (bytesPend p') v'), opCode := .text }
          (List.map (fun q => { fin := false, opcode := .continuation, len := q.length, data := q }) rest
            ++ [{ fin := true, opcode := .continuation, len := plast.length, data := plast }]) with
        | .error e => (.error e : Except FrameError (Fragments × List (Option Frame)))
        | .ok (st2, outs) => .ok (st2, none :: outs)) = _
      rw [hrec, hcat]
      simp [List.replicate_succ, List.append_assoc]

/-- Claim C4: for any Text message properly fragmented into a first Text
frame with `fin=false` followed by Continuation frames ending with
`fin=true`, whose concatenated payload is valid UTF-8, the reassembler
returns `None` on every non-final frame and on the final frame emits
exactly one Text frame whose data is the concatenation of the fragment
payloads. -/
theorem c4_text_reassembly (p0 : List Nat) (mid : List (List Nat)) (plast : List Nat)
    (hv : validUtf8 (p0 ++ (catBytes mid ++ plast)) = true) :
    runFrames Fragments.new (textFragFrames p0 mid plast)
      = .ok ({ fragments := none, opCode := .text },
             List.replicate (mid.length + 1) none ++
               [some (Frame.new .text (p0 ++ (catBytes mid ++ plast)))]) := by
  have htotal := validUtf8_feedAll _ hv
  rw [feedAll_append p0 (catBytes mid ++ plast) ([], [])] at htotal
  cases hp : feedAll ([], []) p0 with
  | none =>
    rw [hp] at htotal
    cases htotal
  | some s =>
    obtain ⟨v, p⟩ := s
    rw [hp] at htotal
    change feedAll (v, p) (catBytes mid ++ plast) = _ at htotal
    have htotal' : feedAll ([], []) (p0 ++ (catBytes mid ++ plast))
        = some (p0 ++ (catBytes mid ++ plast), []) := by
      rw [feedAll_append p0 (catBytes mid ++ plast) ([], []), hp]
      exact htotal
    have htail := runFrames_text_tail plast mid p0 v p hp htotal'
    rw [textFragFrames, List.cons_append, runFrames_cons]
    rw [accumulate_text_start p0.length p0 v p hp]
    show (match runFrames { fragments := some (.text (bytesPend p) v), opCode := .text }
        (List.map (fun q => { fin := false, opcode := .continuation, len := q.length, data := q }) mid
          ++ [{ fin := true, opcode := .continuation, len := plast.length, data := plast }]) with
      | .error e => (.error e : Except FrameError (Fragments × List (Option Frame)))
      | .ok (st2, outs) => .ok (st2, none :: outs)) = _
    rw [htail]
    simp [List.replicate_succ]

/-- Witness for C4 at the fragmentation `"H" / E2 / 82 / AC` of `"H€"`. -/
theorem c4_text_reassembly_witness :
    validUtf8 ([0x48] ++ (catBytes [[0xE2], [0x82]] ++ [0xAC])) = true ∧
    runFrames Fragments.new (textFragFrames [0x48] [[0xE2], [0x82]] [0xAC])
      = .ok ({ fragments := none, opCode := .text },
             List.replicate 3 none ++
               [some (Frame.new .text ([0x48] ++ (catBytes [[0xE2], [0x82]] ++ [0xAC])))]) :=
  ⟨by decide, c4_text_reassembly [0x48] [[0xE2], [0x82]] [0xAC] (by decide)⟩

theorem opcode_header_bits (op : Opcode) :
    (((0x80 ||| op.toByte) &&& 0x80 != 0) = true) ∧
    (((0x80 ||| op.toByte) &&& 0x40 != 0) = false) ∧
    (((0x80 ||| op.toByte) &&& 0x20 != 0) = false) ∧
    (((0x80 ||| op.toByte) &&& 0x10 != 0) = false) ∧
    ((0x80 ||| op.toByte) &&& 0x0F = op.toByte) ∧
    (Opcode.ofByte op.toByte = .ok op) := by
  cases op <;> decide

theorem len_byte_masked (n : Nat) (h : n < 126) :
    ((n ||| 0x80) &&& 0x7F = n) ∧ (((n ||| 0x80) &&& 0x80 != 0) = true) := by
  revert h
  revert n
  decide

theorem len_byte_unmasked (n : Nat) (h : n < 126) :
    (n &&& 0x7F = n) ∧ ((n &&& 0x80 != 0) = false) := by
  revert h
  revert n
  decide

theorem writeFrame_small (op : Opcode) (d : List Nat) (h : d.length ≤ 125) :
    writeFrame { fin := true, opcode := op, len := d.length, data := d }
      = (0x80 ||| op.toByte) :: d.length :: d := by
  simp [writeFrame, h]

theorem clientMasked_small (key : List Nat) (op : Opcode) (d : List Nat) (h : d.length ≤ 125) :
    clientMasked key { fin := true, opcode := op, len := d.length, data := d }
      = (0x80 ||| op.toByte) :: (d.length ||| 0x80) :: (key ++ maskBytes key d) := by
  simp [clientMasked, writeFrame_small op d h, h]

theorem readFrame_small (max : Nat) (op : Opcode) (key d : List Nat)
    (hkey : key.length = 4) (h : d.length ≤ 125) (hmax : d.length ≤ max)
    (hclose : ¬(op = .close ∧ d.length = 1)) :
    readFrame max ((0x80 ||| op.toByte) :: (d.length ||| 0x80) :: (key ++ maskBytes key d))
      = .ok ({ fin := true, opcode := op, len := d.length, data := d }, []) := by
  obtain ⟨hb80, hb40, hb20, hb10, hb0F, hof⟩ := opcode_header_bits op
  obtain ⟨hl7, hl8⟩ := len_byte_masked d.length (by omega)
  simp only [readFrame, rdByte]
  rw [hb80, hb40, hb20, hb10, hb0F, hof, hl7, hl8]
  norm_num
  rw [if_neg (show ¬ d.length = 126 from by omega), if_neg (show ¬ d.length = 127 from by omega)]
  simp only [readN_exact 4 key (maskBytes key d) hkey,
    readN_all d.length (maskBytes key d) (maskBytes_length key d),
    maskBytes_invol key d]
  rw [if_neg (show ¬(op = .ping ∧ 125 < d.length) from fun hc => by omega)]
  rw [if_neg hclose]
  rw [if_neg (show ¬ max < d.length from by omega)]


theorem writeFrame_med (op : Opcode) (d : List Nat) (h1 : ¬ d.length ≤ 125)
    (h2 : d.length ≤ 65535) :
    writeFrame { fin := true, opcode := op, len := d.length, data := d }
      = (0x80 ||| op.toByte) :: 126 :: (be2 d.length ++ d) := by
  simp [writeFrame, h1, h2]

theorem writeFrame_big (op : Opcode) (d : List Nat) (h1 : ¬ d.length ≤ 125)
    (h2 : ¬ d.length ≤ 65535) :
    writeFrame { fin := true, opcode := op, len := d.length, data := d }
      = (0x80 ||| op.toByte) :: 127 :: (be8 d.length ++ d) := by
  simp [writeFrame, h1, h2]

theorem clientMasked_med (key : List Nat) (op : Opcode) (d : List Nat)
    (h1 : ¬ d.length ≤ 125) (h2 : d.length ≤ 65535) :
    clientMasked key { fin := true, opcode := op, len := d.length, data := d }
      = (0x80 ||| op.toByte) :: (126 ||| 0x80) :: (be2 d.length ++ (key ++ maskBytes key d)) := by
  rw [clientMasked, writeFrame_med op d h1 h2]
  simp [h1, h2, be2, List.append_assoc]

theorem clientMasked_big (key : List Nat) (op : Opcode) (d : List Nat)
    (h1 : ¬ d.length ≤ 125) (h2 : ¬ d.length ≤ 65535) :
    clientMasked key { fin := true, opcode := op, len := d.length, data := d }
      = (0x80 ||| op.toByte) :: (127 ||| 0x80) :: (be8 d.length ++ (key ++ maskBytes key d)) := by
  rw [clientMasked, writeFrame_big op d h1 h2]
  simp [h1, h2, be8, List.append_assoc]

theorem readFrame_med (max : Nat) (op : Opcode) (key d : List Nat)
    (hkey : key.length = 4) (_h1 : ¬ d.length ≤ 125) (h2 : d.length ≤ 65535)
    (hmax : d.length ≤ max) (hping : ¬(op = .ping ∧ d.length > 125)) :
    readFrame max ((0x80 ||| op.toByte) :: (126 ||| 0x80) :: (be2 d.length ++ (key ++ maskBytes key d)))
      = .ok ({ fin := true, opcode := op, len := d.length, data := d }, []) := by
  obtain ⟨hb80, hb40, hb20, hb10, hb0F, hof⟩ := opcode_header_bits op
  simp only [readFrame, rdByte]
  rw [hb80, hb40, hb20, hb10, hb0F, hof]
  rw [show (126 ||| 0x80 : Nat) &&& 0x7F = 126 from rfl]
  rw [show ((126 ||| 0x80 : Nat) &&& 0x80 != 0) = true from rfl]
  norm_num
  rw [readN_exact 2 (be2 d.length) (key ++ maskBytes key d) rfl]
  simp only [readN_exact 4 key (maskBytes key d) hkey,
    readN_all d.length (maskBytes key d) (maskBytes_length key d),
    maskBytes_invol key d, beVal_be2 d.length (by omega)]
  rw [if_neg (show ¬(op = .ping ∧ 125 < d.length) from hping)]
  rw [if_neg (show ¬(op = .close ∧ d.length = 1) from fun hc => by omega)]
  rw [if_neg (show ¬ max < d.length from by omega)]

theorem readFrame_big (max : Nat) (op : Opcode) (key d : List Nat)
    (hkey : key.length = 4) (_h1 : ¬ d.length ≤ 125) (h2 : ¬ d.length ≤ 65535)
    (hbound : d.length < 18446744073709551616)
    (hmax : d.length ≤ max) (hping : ¬(op = .ping ∧ d.length > 125)) :
    readFrame max ((0x80 ||| op.toByte) :: (127 ||| 0x80) :: (be8 d.length ++ (key ++ maskBytes key d)))
      = .ok ({ fin := true, opcode := op, len := d.length, data := d }, []) := by
  obtain ⟨hb80, hb40, hb20, hb10, hb0F, hof⟩ := opcode_header_bits op
  simp only [readFrame, rdByte]
  rw [hb80, hb40, hb20, hb10, hb0F, hof]
  rw [show (127 ||| 0x80 : Nat) &&& 0x7F = 127 from rfl]
  rw [show ((127 ||| 0x80 : Nat) &&& 0x80 != 0) = true from rfl]
  norm_num
  rw [readN_exact 8 (be8 d.length) (key ++ maskBytes key d) rfl]
  simp only [readN_exact 4 key (maskBytes key d) hkey,
    readN_all d.length (maskBytes key d) (maskBytes_length key d),
    maskBytes_invol key d, beVal_be8 d.length hbound]
  rw [if_neg (show ¬(op = .ping ∧ 125 < d.length) from hping)]
  rw [if_neg (show ¬(op = .close ∧ d.length = 1) from fun hc => by omega)]
  rw [if_neg (show ¬ max < d.length from by omega)]

/-- Claim C5 (amended): for any frame `f` with `fin=true`, a valid opcode,
`len = |data|`, `|data| ≤ max_payload_size` and `|data| < 2^64`, that is
neither a Close frame with a 1-byte payload nor a Ping frame with payload
longer than 125 bytes, decoding the encoder's output — re-masked under an
arbitrary 4-byte key with the MASK bit set — yields `f` back exactly. -/
theorem c5_roundtrip (f : Frame) (key : List Nat) (max : Nat)
    (hfin : f.fin = true) (hlen : f.len = f.data.length) (hkey : key.length = 4)
    (hmax : f.data.length ≤ max) (hbound : f.data.length < 18446744073709551616)
    (hclose : ¬(f.opcode = .close ∧ f.data.length = 1))
    (hping : ¬(f.opcode = .ping ∧ f.data.length > 125)) :
    readFrame max (clientMasked key f) = .ok (f, []) := by
  obtain ⟨ffin, op, len, d⟩ := f
  simp only at hfin hlen hmax hbound hclose hping
  subst hfin
  subst hlen
  by_cases h125 : d.length ≤ 125
  · rw [clientMasked_small key op d h125]
    exact readFrame_small max op key d hkey h125 hmax hclose
  · by_cases h65535 : d.length ≤ 65535
    · rw [clientMasked_med key op d h125 h65535]
      exact readFrame_med max op key d hkey h125 h65535 hmax hping
    · rw [clientMasked_big key op d h125 h65535]
      exact readFrame_big max op key d hkey h125 h65535 hbound hmax hping

/-- Witness for C5 at the Text frame `"Hi"` with key `[1,2,3,4]`. -/
theorem c5_roundtrip_witness :
    readFrame 1024 (clientMasked [1, 2, 3, 4]
        { fin := true, opcode := .text, len := 2, data := [72, 105] })
      = .ok ({ fin := true, opcode := .text, len := 2, data := [72, 105] }, []) :=
  c5_roundtrip { fin := true, opcode := .text, len := 2, data := [72, 105] } [1, 2, 3, 4] 1024
    rfl rfl rfl (by decide) (by decide) (by simp) (by simp)

/-- Claim C7 (amended): the decoder does not enforce masking; every
well-formed frame with the MASK bit clear (shown here for payloads up to
125 bytes) is decoded successfully with the payload read unmasked, rather
than rejected with a protocol error. -/
theorem c7_unmasked_accepted_generally (max : Nat) (op : Opcode) (d : List Nat)
    (h : d.length ≤ 125) (hmax : d.length ≤ max)
    (hclose : ¬(op = .close ∧ d.length = 1)) :
    readFrame max ((0x80 ||| op.toByte) :: d.length :: d)
      = .ok ({ fin := true, opcode := op, len := d.length, data := d }, []) := by
  obtain ⟨hb80, hb40, hb20, hb10, hb0F, hof⟩ := opcode_header_bits op
  obtain ⟨hl7, hl8⟩ := len_byte_unmasked d.length (by omega)
  simp only [readFrame, rdByte]
  rw [hb80, hb40, hb20, hb10, hb0F, hof, hl7, hl8]
  norm_num
  rw [if_neg (show ¬ d.length = 126 from by omega), if_neg (show ¬ d.length = 127 from by omega)]
  simp only [readN_all d.length d rfl]
  rw [if_neg (show ¬(op = .ping ∧ 125 < d.length) from fun hc => by omega)]
  rw [if_neg hclose]
  rw [if_neg (show ¬ max < d.length from by omega)]

/-- Witness for C7 (amended) at an unmasked Text frame `"Hi"`. -/
theorem c7_unmasked_accepted_generally_witness :
    readFrame 1024 ((0x80 ||| Opcode.text.toByte) :: ([72, 105] : List Nat).length :: [72, 105])
      = .ok ({ fin := true, opcode := .text, len := ([72, 105] : List Nat).length,
               data := [72, 105] }, []) :=
  c7_unmasked_accepted_generally 1024 .text [72, 105] (by decide) (by decide) (by simp)
